import Mathlib

/- Shallow embedding of the Rock-Paper-Scissors battle simulation engine:
   entity model and conversion (docs/js/entities/base-entity.js), dominance
   rules (docs/js/game/game-engine.js), spatial collision system
   (CollisionSystem), per-species strategies (RockStrategy, PaperStrategy,
   ScissorsStrategy), physics boundary handling (docs/js/game/physics-engine.js)
   and vector math (docs/js/utils/math-utils.js).

   Conventions of the embedding:
   - JS numbers are modelled as rationals, except for the square-root based
     magnitude and normalize of math-utils, which are modelled over the reals.
   - Comparisons of Euclidean distances against thresholds are embedded by
     comparing squared distances: for d2, r >= 0 we have sqrt d2 <= r iff
     d2 <= r * r, so sqrtLe, sqrtLt and sqrtGt below are exact embeddings of
     the corresponding comparisons on Math.sqrt values.
   - Imperative loops become structural recursion or folds; the JS Map used
     for the spatial grid becomes a function from cell keys to the list of
     entities inserted into that cell, in insertion order.
   - Math.random results are passed in as explicit inputs where a strategy
     consumes them. -/

namespace RPS

/-- The three species (docs/js/config/game-config.js symbols array). -/
inductive Species
  | Rock
  | Paper
  | Scissors
deriving DecidableEq, Repr

/- GameConfig.game constants (docs/js/config/game-config.js). -/

def canvasWidth : ℚ := 800

def canvasHeight : ℚ := 600

def battleDurationDefault : ℚ := 300000

def conversionRadius : ℚ := 20

def avoidanceRadius : ℚ := 30

def movementSpeed : ℚ := 2

/- MathUtils vector operations over rationals (docs/js/utils/math-utils.js). -/

def vAdd (a b : ℚ × ℚ) : ℚ × ℚ := (a.1 + b.1, a.2 + b.2)

def vSub (a b : ℚ × ℚ) : ℚ × ℚ := (a.1 - b.1, a.2 - b.2)

def vMul (v : ℚ × ℚ) (s : ℚ) : ℚ × ℚ := (v.1 * s, v.2 * s)

/-- Squared Euclidean distance between two points; MathUtils.distance is
its square root, and all comparisons in the engine are embedded through
sqrtLe, sqrtLt and sqrtGt below. -/
def distSq (a b : ℚ × ℚ) : ℚ := (a.1 - b.1) ^ 2 + (a.2 - b.2) ^ 2

/-- Embedding of the comparison (Math.sqrt d2 <= r): true iff r is
nonnegative and d2 <= r * r. -/
def sqrtLe (d2 r : ℚ) : Bool := decide (0 ≤ r) && decide (d2 ≤ r * r)

/-- Embedding of the comparison (Math.sqrt d2 < r). -/
def sqrtLt (d2 r : ℚ) : Bool := decide (0 < r) && decide (d2 < r * r)

/-- Embedding of the comparison (Math.sqrt d2 > r). -/
def sqrtGt (d2 r : ℚ) : Bool := decide (r < 0) || decide (r * r < d2)

/-- MathUtils.clamp: Math.min(Math.max(value, lo), hi). -/
def clampQ (v lo hi : ℚ) : ℚ := min (max v lo) hi

/-- BaseEntity.getTeamColor: the palette has entries for teams 1..3 and a
fallback for any other team index; colors are abstracted by palette index
(1..3) with 0 for the fallback color. -/
def getTeamColor (team : ℕ) : ℕ := if 1 ≤ team ∧ team ≤ 3 then team else 0

/-- The mutable per-agent state of BaseEntity (docs/js/entities/base-entity.js).
The strategy field holds the species whose strategy object has been attached
by the per-species updateAI, none before first attachment. -/
structure Entity where
  id : ℕ
  type : Species
  team : ℕ
  position : ℚ × ℚ
  velocity : ℚ × ℚ
  radius : ℚ
  health : ℚ
  maxHealth : ℚ
  speed : ℚ
  isAlive : Bool
  isConverting : Bool
  conversionTarget : Option ℕ
  color : ℕ
  strategy : Option Species
  conversions : ℕ
  survivalTime : ℚ
  distanceTraveled : ℚ
deriving DecidableEq, Repr

/-- The BaseEntity constructor with the default base fields (radius 15,
health 100, speed GameConfig.game.movementSpeed, alive, not converting). -/
def mkEntity (id : ℕ) (sp : Species) (pos : ℚ × ℚ) (team : ℕ) : Entity :=
  { id := id
    type := sp
    team := team
    position := pos
    velocity := (0, 0)
    radius := 15
    health := 100
    maxHealth := 100
    speed := movementSpeed
    isAlive := true
    isConverting := false
    conversionTarget := none
    color := getTeamColor team
    strategy := none
    conversions := 0
    survivalTime := 0
    distanceTraveled := 0 }

/-- GameEngine.canConvert dominance table (game-engine.js lines 260-271). -/
def rules (s : Species) : Species :=
  match s with
  | .Rock => .Scissors
  | .Paper => .Rock
  | .Scissors => .Paper

/-- GameEngine.canConvert: same team never converts; otherwise entity1
converts entity2 iff the dominance table maps the type of entity1 to the
type of entity2. -/
def canConvert (e1 e2 : Entity) : Bool :=
  if e1.team = e2.team then false
  else rules e1.type == e2.type

/-- GameEngine.getWinner (game-engine.js lines 273-278). -/
def getWinner (e1 e2 : Entity) : Option Entity :=
  if canConvert e1 e2 then some e1
  else if canConvert e2 e1 then some e2
  else none

/-- BaseEntity.convert (base-entity.js lines 139-160): when the target is
alive and within the conversion radius, mark the converter as converting and
record the target; the 500ms completion is scheduled externally. -/
def convert (e target : Entity) : Entity :=
  if !target.isAlive then e
  else if sqrtLe (distSq e.position target.position) conversionRadius then
    { e with isConverting := true, conversionTarget := some target.id }
  else e

/-- BaseEntity.completeConversion (base-entity.js lines 162-187), as a pure
function from (converter, target) to the updated pair. The only guard in the
source is that the target is non-null and alive; when it fires, the target
takes the type, team, color of the converter and health := converter
maxHealth, and the converter clears its converting flags and increments its
conversions counter. -/
def completeConversion (e target : Entity) : Entity × Entity :=
  if !target.isAlive then (e, target)
  else
    ({ e with isConverting := false, conversionTarget := none,
              conversions := e.conversions + 1 },
     { target with type := e.type, team := e.team, color := e.color,
                   health := e.maxHealth })

/-- BaseEntity.die (base-entity.js lines 272-282). -/
def die (e : Entity) : Entity := { e with isAlive := false, health := 0 }

/-- BaseEntity.clampToBounds (base-entity.js lines 201-208): clamp the
position to the canvas rectangle. -/
def clampToBounds (e : Entity) : Entity :=
  { e with position := (clampQ e.position.1 0 canvasWidth,
                        clampQ e.position.2 0 canvasHeight) }

/- CollisionSystem (src/unnamed/part_004). -/

/-- CollisionSystem.gridSize (50 world units per cell). -/
def gridSize : ℚ := 50

/-- The spatial-grid cell key of an entity: floor(x / gridSize),
floor(y / gridSize). -/
def cellOf (e : Entity) : ℤ × ℤ :=
  (⌊e.position.1 / gridSize⌋, ⌊e.position.2 / gridSize⌋)

/-- CollisionSystem.checkCollision: both alive, distinct ids, and distance
at most the sum of the radii. -/
def checkCollision (e1 e2 : Entity) : Bool :=
  e1.isAlive && e2.isAlive && decide (e1.id ≠ e2.id) &&
    sqrtLe (distSq e1.position e2.position) (e1.radius + e2.radius)

/-- CollisionSystem.checkConversionCollision: both alive, distinct ids,
different teams, distance at most the conversion radius. -/
def checkConversionCollision (e1 e2 : Entity) : Bool :=
  e1.isAlive && e2.isAlive && decide (e1.id ≠ e2.id) &&
    decide (e1.team ≠ e2.team) &&
    sqrtLe (distSq e1.position e2.position) conversionRadius

/-- CollisionSystem.updateSpatialGrid: clear the grid and insert every live
entity into the cell of its position. The JS Map from key to array is
modelled as the function sending a key to the bucket contents in insertion
order. -/
def updateSpatialGrid (es : List Entity) : ℤ × ℤ → List Entity :=
  fun k => es.filter (fun e => e.isAlive && decide (cellOf e = k))

/-- CollisionSystem.getEntitiesInCell. -/
def getEntitiesInCell (grid : ℤ × ℤ → List Entity) (k : ℤ × ℤ) : List Entity :=
  grid k

/-- The 3x3 block of cells around a cell, in the iteration order of
getNearbyEntities (x from gx-1 to gx+1 outer, y inner). -/
def neighborCells (c : ℤ × ℤ) : List (ℤ × ℤ) :=
  [(c.1 - 1, c.2 - 1), (c.1 - 1, c.2), (c.1 - 1, c.2 + 1),
   (c.1, c.2 - 1), (c.1, c.2), (c.1, c.2 + 1),
   (c.1 + 1, c.2 - 1), (c.1 + 1, c.2), (c.1 + 1, c.2 + 1)]

/-- CollisionSystem.getNearbyEntities: concatenate the 3x3 block of cells
around the cell of the entity, then drop the entity itself. -/
def getNearbyEntities (grid : ℤ × ℤ → List Entity) (e : Entity) : List Entity :=
  ((neighborCells (cellOf e)).flatMap grid).filter (fun o => decide (o.id ≠ e.id))

/-- The ordered id pair of an entity pair, the model of the string key
entity1.id-entity2.id used in the checked set of checkAllCollisions. -/
def uid (p : Entity × Entity) : ℕ × ℕ := (p.1.id, p.2.id)

/-- Inner loop of CollisionSystem.checkAllCollisions over the nearby list of
one entity: skip dead neighbors, skip pairs whose reversed key is already in
the checked set, record a pair and its key when checkCollision holds. -/
def innerAux (e : Entity) (nearby : List Entity)
    (pairs : List (Entity × Entity)) (checked : List (ℕ × ℕ)) :
    List (Entity × Entity) × List (ℕ × ℕ) :=
  match nearby with
  | [] => (pairs, checked)
  | o :: rest =>
    if !o.isAlive then innerAux e rest pairs checked
    else if (o.id, e.id) ∈ checked then innerAux e rest pairs checked
    else if checkCollision e o then
      innerAux e rest (pairs ++ [(e, o)]) (checked ++ [(e.id, o.id)])
    else innerAux e rest pairs checked

/-- Outer loop of CollisionSystem.checkAllCollisions over all entities. -/
def collideAux (grid : ℤ × ℤ → List Entity) (es : List Entity)
    (pairs : List (Entity × Entity)) (checked : List (ℕ × ℕ)) :
    List (Entity × Entity) × List (ℕ × ℕ) :=
  match es with
  | [] => (pairs, checked)
  | e :: rest =>
    if e.isAlive then
      let r := innerAux e (getNearbyEntities grid e) pairs checked
      collideAux grid rest r.1 r.2
    else collideAux grid rest pairs checked

/-- CollisionSystem.checkAllCollisions (part_004 lines 88-112): rebuild the
spatial grid from the entities, then collect deduplicated colliding pairs
through the 3x3 neighbor queries. -/
def checkAllCollisions (es : List Entity) : List (Entity × Entity) :=
  (collideAux (updateSpatialGrid es) es [] []).1

/-- The triangular double loop of GameEngine.checkCollisions: all pairs
(i, j) with i < j of the given list that satisfy checkCollision. -/
def trianglePairs : List Entity → List (Entity × Entity)
  | [] => []
  | e :: rest =>
    ((rest.filter (fun o => checkCollision e o)).map (fun o => (e, o))) ++
      trianglePairs rest

/-- GameEngine.checkCollisions (game-engine.js lines 225-241): brute-force
pairwise collision detection over the alive entities. -/
def engineCheckCollisions (es : List Entity) : List (Entity × Entity) :=
  trianglePairs (es.filter (·.isAlive))

/-- The unordered id pair (i, j) is reported in a pair list. -/
def inPairs (P : List (Entity × Entity)) (i j : ℕ) : Prop :=
  ∃ p ∈ P, (p.1.id = i ∧ p.2.id = j) ∨ (p.1.id = j ∧ p.2.id = i)

/-- Two entity pairs cover the same unordered id pair. -/
def sameUPair (p q : Entity × Entity) : Prop :=
  (p.1.id = q.1.id ∧ p.2.id = q.2.id) ∨ (p.1.id = q.2.id ∧ p.2.id = q.1.id)

/- GameEngine battle statistics and engine state (docs/js/game/game-engine.js). -/

/-- GameEngine.battleStats. The teamCounts object is modelled as a function
from team index to count. -/
structure BattleStats where
  totalConversions : ℕ
  activePlayers : ℕ
  battleTime : ℚ
  teamCounts : ℕ → ℕ

/-- The engine state relevant to the battle lifecycle. -/
structure EngineState where
  entities : List Entity
  isRunning : Bool
  isPaused : Bool
  battleStats : BattleStats
  battleDuration : ℚ

/-- One increment step of teamCounts[entity.team]++. -/
def bumpTeam (f : ℕ → ℕ) (t : ℕ) : ℕ → ℕ :=
  fun x => if x = t then f x + 1 else f x

/-- The team counting loop of GameEngine.updateStatistics: reset all counts
to 0, then increment the bucket of each alive entity. -/
def countTeams (es : List Entity) : ℕ → ℕ :=
  es.foldl (fun f e => bumpTeam f e.team) (fun _ => 0)

/-- GameEngine.updateStatistics (game-engine.js lines 280-290). -/
def updateStatistics (s : EngineState) : EngineState :=
  let aliveEntities := s.entities.filter (·.isAlive)
  { s with battleStats :=
      { s.battleStats with
          activePlayers := aliveEntities.length,
          teamCounts := countTeams aliveEntities } }

/-- The size of the Set of teams of the alive entities, as used by
GameEngine.checkBattleEnd. -/
def uniqueTeamsCount (es : List Entity) : ℕ :=
  ((es.filter (·.isAlive)).map (·.team)).dedup.length

/-- GameEngine.stop (game-engine.js lines 102-115), state part. -/
def stop (s : EngineState) : EngineState :=
  { s with isRunning := false, isPaused := false }

/-- GameEngine.endBattle (game-engine.js lines 317-330): log and stop. -/
def endBattle (s : EngineState) : EngineState := stop s

/-- GameEngine.checkBattleEnd (game-engine.js lines 306-315): end the battle
when at most one team remains among the alive entities or the battle time
reached the configured duration. -/
def checkBattleEnd (s : EngineState) : EngineState :=
  if uniqueTeamsCount s.entities ≤ 1 ∨
      s.battleStats.battleTime ≥ s.battleDuration then endBattle s
  else s

/-- GameEngine.addEntity (game-engine.js lines 414-419): Map.set semantics
(replace the entry with the same id if present, append otherwise) and
increment activePlayers. -/
def addEntity (s : EngineState) (e : Entity) : EngineState :=
  if s.entities.any (fun x => x.id == e.id) then
    { s with entities := s.entities.map (fun x => if x.id = e.id then e else x),
             battleStats := { s.battleStats with
               activePlayers := s.battleStats.activePlayers + 1 } }
  else
    { s with entities := s.entities ++ [e],
             battleStats := { s.battleStats with
               activePlayers := s.battleStats.activePlayers + 1 } }

/-- GameEngine.removeEntity (game-engine.js lines 422-429): Map.delete of
the entry with the given id (under distinct ids, a filter) and decrement
activePlayers when the entity existed. -/
def removeEntity (s : EngineState) (i : ℕ) : EngineState :=
  if s.entities.any (fun x => x.id == i) then
    { s with entities := s.entities.filter (fun x => decide (x.id ≠ i)),
             battleStats := { s.battleStats with
               activePlayers := s.battleStats.activePlayers - 1 } }
  else s

/-- The effect on the entity pool of a completeConversion firing for the
winner and loser with the given ids: both pool entries are rewritten in
place, nothing is added or removed. -/
def applyCompleteConversion (es : List Entity) (wId lId : ℕ) : List Entity :=
  match es.find? (fun e => e.id == wId), es.find? (fun e => e.id == lId) with
  | some w, some l =>
    es.map (fun x =>
      if x.id = wId then (completeConversion w l).1
      else if x.id = lId then (completeConversion w l).2
      else x)
  | _, _ => es

/- Strategy decisions (part_002 RockStrategy, docs/js/entities/paper-entity.js
PaperStrategy, part_003 ScissorsStrategy). -/

/-- A strategy decision. The JS decision objects are tagged records; wait
and convert never occur as outputs of the three strategies. -/
inductive Decision
  | attack (target : Entity) (direction : ℚ × ℚ)
  | avoid (target : Entity) (direction : ℚ × ℚ)
  | move (direction : ℚ × ℚ) (speed : ℚ)
deriving DecidableEq, Repr

/-- Loop body of the per-strategy getClosestEntity: keep the entity of
strictly smaller distance, starting from the infinite sentinel (none). -/
def closestStep (entity : Entity) (acc : Option (Entity × ℚ)) (o : Entity) :
    Option (Entity × ℚ) :=
  match acc with
  | none => some (o, distSq entity.position o.position)
  | some cd =>
    if distSq entity.position o.position < cd.2 then
      some (o, distSq entity.position o.position)
    else acc

/-- Shared shape of the per-strategy getClosestEntity: first entity of the
list attaining the minimum distance, tracked by squared distance. -/
def getClosestEntity (entity : Entity) (entities : List Entity) : Option Entity :=
  Option.map Prod.fst (entities.foldl (closestStep entity) none)

/-- Shared shape of the per-strategy getNearbyEntities: alive entities other
than the given one within maxDistance. -/
def strategyNearby (maxDistance : ℚ) (entity : Entity) (allEntities : List Entity) :
    List Entity :=
  allEntities.filter (fun o =>
    !(o.id == entity.id) && o.isAlive &&
      sqrtLe (distSq entity.position o.position) maxDistance)

namespace RockStrategy

/-- RockStrategy.getNearbyEntities, maxDistance 100. -/
def getNearbyEntities (entity : Entity) (allEntities : List Entity) : List Entity :=
  strategyNearby 100 entity allEntities

/-- RockStrategy priority 4 and the default branch: hunt the closest enemy
at full speed, else wander in the random direction at half speed. -/
def priority4 (entity : Entity) (enemies : List Entity) (rnd : ℚ × ℚ) : Decision :=
  match getClosestEntity entity enemies with
  | some closestEnemy =>
    Decision.move (vSub closestEnemy.position entity.position) entity.speed
  | none => Decision.move rnd (entity.speed * (1 / 2))

/-- RockStrategy priority 3: group with the closest ally when farther than
50, at 0.8 speed. -/
def priority3 (entity : Entity) (enemies allies : List Entity) (rnd : ℚ × ℚ) :
    Decision :=
  match getClosestEntity entity allies with
  | some closestAlly =>
    if sqrtGt (distSq entity.position closestAlly.position) 50 then
      Decision.move (vSub closestAlly.position entity.position)
        (entity.speed * (4 / 5))
    else priority4 entity enemies rnd
  | none => priority4 entity enemies rnd

/-- RockStrategy priority 2: avoid the closest Paper enemy when within the
avoidance radius. -/
def priority2 (entity : Entity) (enemies allies : List Entity) (rnd : ℚ × ℚ) :
    Decision :=
  let paperEnemies := enemies.filter (fun o => o.type == Species.Paper)
  match getClosestEntity entity paperEnemies with
  | some closestPaper =>
    if sqrtLt (distSq entity.position closestPaper.position) avoidanceRadius then
      Decision.avoid closestPaper (vSub entity.position closestPaper.position)
    else priority3 entity enemies allies rnd
  | none => priority3 entity enemies allies rnd

/-- RockStrategy.decide (part_002 lines 94-164). -/
def decide (entity : Entity) (others : List Entity) (rnd : ℚ × ℚ) : Decision :=
  let nearbyEntities := getNearbyEntities entity others
  let enemies := nearbyEntities.filter (fun o =>
    !(o.team == entity.team) && o.isAlive)
  let allies := nearbyEntities.filter (fun o =>
    (o.team == entity.team) && o.isAlive)
  let targets := enemies.filter (fun o => o.type == Species.Scissors)
  match getClosestEntity entity targets with
  | some closestTarget =>
    Decision.attack closestTarget (vSub closestTarget.position entity.position)
  | none => priority2 entity enemies allies rnd

end RockStrategy

namespace PaperStrategy

/-- PaperStrategy.getNearbyEntities, maxDistance 120. -/
def getNearbyEntities (entity : Entity) (allEntities : List Entity) : List Entity :=
  strategyNearby 120 entity allEntities

/-- PaperStrategy priority 4 and the default branch. -/
def priority4 (entity : Entity) (enemies : List Entity) (rnd : ℚ × ℚ) : Decision :=
  match getClosestEntity entity enemies with
  | some closestEnemy =>
    Decision.move (vSub closestEnemy.position entity.position) entity.speed
  | none => Decision.move rnd (entity.speed * (7 / 10))

/-- PaperStrategy priority 3: spread away from the closest ally when closer
than 30, at 0.6 speed. -/
def priority3 (entity : Entity) (enemies allies : List Entity) (rnd : ℚ × ℚ) :
    Decision :=
  match getClosestEntity entity allies with
  | some closestAlly =>
    if sqrtLt (distSq entity.position closestAlly.position) 30 then
      Decision.move (vSub entity.position closestAlly.position)
        (entity.speed * (3 / 5))
    else priority4 entity enemies rnd
  | none => priority4 entity enemies rnd

/-- PaperStrategy priority 2: avoid the closest Scissors enemy when within
the avoidance radius. -/
def priority2 (entity : Entity) (enemies allies : List Entity) (rnd : ℚ × ℚ) :
    Decision :=
  let scissorsEnemies := enemies.filter (fun o => o.type == Species.Scissors)
  match getClosestEntity entity scissorsEnemies with
  | some closestScissors =>
    if sqrtLt (distSq entity.position closestScissors.position) avoidanceRadius then
      Decision.avoid closestScissors (vSub entity.position closestScissors.position)
    else priority3 entity enemies allies rnd
  | none => priority3 entity enemies allies rnd

/-- PaperStrategy.decide (paper-entity.js lines 98-168). -/
def decide (entity : Entity) (others : List Entity) (rnd : ℚ × ℚ) : Decision :=
  let nearbyEntities := getNearbyEntities entity others
  let enemies := nearbyEntities.filter (fun o =>
    !(o.team == entity.team) && o.isAlive)
  let allies := nearbyEntities.filter (fun o =>
    (o.team == entity.team) && o.isAlive)
  let targets := enemies.filter (fun o => o.type == Species.Rock)
  match getClosestEntity entity targets with
  | some closestTarget =>
    Decision.attack closestTarget (vSub closestTarget.position entity.position)
  | none => priority2 entity enemies allies rnd

end PaperStrategy

namespace ScissorsStrategy

/-- ScissorsStrategy.getNearbyEntities, maxDistance 80. -/
def getNearbyEntities (entity : Entity) (allEntities : List Entity) : List Entity :=
  strategyNearby 80 entity allEntities

/-- ScissorsStrategy priority 4 and the default branch: hunt at 1.1 speed,
wander at 0.8 speed. -/
def priority4 (entity : Entity) (enemies : List Entity) (rnd : ℚ × ℚ) : Decision :=
  match getClosestEntity entity enemies with
  | some closestEnemy =>
    Decision.move (vSub closestEnemy.position entity.position)
      (entity.speed * (11 / 10))
  | none => Decision.move rnd (entity.speed * (4 / 5))

/-- ScissorsStrategy priority 3: move away from the closest ally when closer
than 40, at 0.8 speed. -/
def priority3 (entity : Entity) (enemies allies : List Entity) (rnd : ℚ × ℚ) :
    Decision :=
  match getClosestEntity entity allies with
  | some closestAlly =>
    if sqrtLt (distSq entity.position closestAlly.position) 40 then
      Decision.move (vSub entity.position closestAlly.position)
        (entity.speed * (4 / 5))
    else priority4 entity enemies rnd
  | none => priority4 entity enemies rnd

/-- ScissorsStrategy priority 2: avoid the closest Rock enemy when within
the avoidance radius. -/
def priority2 (entity : Entity) (enemies allies : List Entity) (rnd : ℚ × ℚ) :
    Decision :=
  let rockEnemies := enemies.filter (fun o => o.type == Species.Rock)
  match getClosestEntity entity rockEnemies with
  | some closestRock =>
    if sqrtLt (distSq entity.position closestRock.position) avoidanceRadius then
      Decision.avoid closestRock (vSub entity.position closestRock.position)
    else priority3 entity enemies allies rnd
  | none => priority3 entity enemies allies rnd

/-- ScissorsStrategy.decide (part_003 lines 103-173). -/
def decide (entity : Entity) (others : List Entity) (rnd : ℚ × ℚ) : Decision :=
  let nearbyEntities := getNearbyEntities entity others
  let enemies := nearbyEntities.filter (fun o =>
    !(o.team == entity.team) && o.isAlive)
  let allies := nearbyEntities.filter (fun o =>
    (o.team == entity.team) && o.isAlive)
  let targets := enemies.filter (fun o => o.type == Species.Paper)
  match getClosestEntity entity targets with
  | some closestTarget =>
    Decision.attack closestTarget (vSub closestTarget.position entity.position)
  | none => priority2 entity enemies allies rnd

end ScissorsStrategy

/-- Dispatch of decide by the species of the attached strategy, as done by
the per-species updateAI overrides. -/
def speciesDecide (sp : Species) (entity : Entity) (others : List Entity)
    (rnd : ℚ × ℚ) : Decision :=
  match sp with
  | .Rock => RockStrategy.decide entity others rnd
  | .Paper => PaperStrategy.decide entity others rnd
  | .Scissors => ScissorsStrategy.decide entity others rnd

/-- The perception radius (maxDistance of getNearbyEntities) per species. -/
def perception (sp : Species) : ℚ :=
  match sp with
  | .Rock => 100
  | .Paper => 120
  | .Scissors => 80

/-- The dominance target species hunted by the priority-1 rule per species. -/
def attackTarget (sp : Species) : Species :=
  match sp with
  | .Rock => .Scissors
  | .Paper => .Rock
  | .Scissors => .Paper

/- PhysicsEngine (docs/js/game/physics-engine.js). -/

/-- PhysicsEngine.boundaries. -/
structure Bounds where
  left : ℚ
  right : ℚ
  top : ℚ
  bottom : ℚ

/-- PhysicsEngine fields (gravity 0, friction 0.98, bounce 0.8 in the
constructor; boundaries settable through updateBoundaries). -/
structure PhysicsEngine where
  gravity : ℚ
  friction : ℚ
  bounce : ℚ
  boundaries : Bounds

/-- PhysicsEngine.handleBoundaryCollision (physics-engine.js lines 35-62):
four sequential boundary checks; each clamps the offending position
component to boundary +- radius and multiplies the matching velocity
component by -bounce. -/
def handleBoundaryCollision (pe : PhysicsEngine) (entity : Entity) : Entity :=
  let r := entity.radius
  let e1 :=
    if entity.position.1 - r < pe.boundaries.left then
      { entity with position := (pe.boundaries.left + r, entity.position.2),
                    velocity := (entity.velocity.1 * (-pe.bounce), entity.velocity.2) }
    else entity
  let e2 :=
    if e1.position.1 + r > pe.boundaries.right then
      { e1 with position := (pe.boundaries.right - r, e1.position.2),
                velocity := (e1.velocity.1 * (-pe.bounce), e1.velocity.2) }
    else e1
  let e3 :=
    if e2.position.2 - r < pe.boundaries.top then
      { e2 with position := (e2.position.1, pe.boundaries.top + r),
                velocity := (e2.velocity.1, e2.velocity.2 * (-pe.bounce)) }
    else e2
  if e3.position.2 + r > pe.boundaries.bottom then
    { e3 with position := (e3.position.1, pe.boundaries.bottom - r),
              velocity := (e3.velocity.1, e3.velocity.2 * (-pe.bounce)) }
  else e3

/- MathUtils.magnitude and MathUtils.normalize over the reals
(math-utils.js lines 25-33), for the NaN-freedom property. -/

/-- MathUtils.magnitude: Math.sqrt(x * x + y * y). -/
noncomputable def magnitude (v : ℝ × ℝ) : ℝ :=
  Real.sqrt (v.1 * v.1 + v.2 * v.2)

/-- MathUtils.normalize: the zero vector when the magnitude is 0, otherwise
the componentwise quotient by the magnitude. -/
noncomputable def normalize (v : ℝ × ℝ) : ℝ × ℝ :=
  if magnitude v = 0 then (0, 0)
  else (v.1 / magnitude v, v.2 / magnitude v)

/-- MathUtils.multiply over the reals. -/
noncomputable def multiplyR (v : ℝ × ℝ) (s : ℝ) : ℝ × ℝ := (v.1 * s, v.2 * s)

/-- The velocity assigned by BaseEntity.move (base-entity.js lines 106-110):
normalize the direction and scale by the speed. -/
noncomputable def moveVelocity (direction : ℝ × ℝ) (speed : ℝ) : ℝ × ℝ :=
  multiplyR (normalize direction) speed

/- Concrete entities and states for witnesses and counterexamples. -/

/-- A Rock entity of team 1 at the origin. -/
def sampleRock : Entity := mkEntity 1 .Rock (0, 0) 1

/-- A Scissors entity of team 2 at distance 5 from sampleRock, inside the
conversion radius 20. -/
def sampleScissors : Entity := mkEntity 2 .Scissors (5, 0) 2

/-- A Paper entity of team 3 at (40, 0). -/
def samplePaper : Entity := mkEntity 3 .Paper (40, 0) 3

/-- A far-away Rock entity of team 1 at (300, 300). -/
def sampleFarRock : Entity := mkEntity 4 .Rock (300, 300) 1

/-- The sampleRock entity amid a conversion of sampleScissors, as set up by
convert. -/
def sampleRockConverting : Entity :=
  { sampleRock with isConverting := true, conversionTarget := some 2 }

/-- The sampleScissors entity as rewritten by a third-party conversion to
Paper, team 3, still alive. -/
def sampleReconverted : Entity :=
  { sampleScissors with type := Species.Paper, team := 3, color := 3 }

/-- Zeroed battle statistics, as set at battle start. -/
def stats0 : BattleStats :=
  { totalConversions := 0
    activePlayers := 0
    battleTime := 0
    teamCounts := fun _ => 0 }

/-- A running engine state in which only team 1 has live entities. -/
def sampleStateOneTeam : EngineState :=
  { entities := [sampleRock, sampleFarRock]
    isRunning := true
    isPaused := false
    battleStats := stats0
    battleDuration := battleDurationDefault }

/-- The physics engine with its constructor constants (gravity 0, friction
0.98, bounce 0.8) and the default 800 x 600 canvas boundaries. -/
def pe0 : PhysicsEngine :=
  { gravity := 0
    friction := 49 / 50
    bounce := 4 / 5
    boundaries := { left := 0, right := 800, top := 0, bottom := 600 } }

/-- An entity at the top-left arena corner with outward velocity, past both
the left and the top boundary once its radius is accounted for. -/
def cornerEntity : Entity :=
  { sampleRock with position := (10, 5), velocity := (-5, -7) }

/-- A small entity list for the grid-versus-brute-force witness: ids 1, 2, 4
are distinct, all radii are 15, the first two entities collide and the third
is far away. -/
def gridSampleEntities : List Entity :=
  [sampleRock, sampleScissors, sampleFarRock]

/-- Claim C1: for every pair of entities with different species and
different teams, exactly one of canConvert(e1, e2) and canConvert(e2, e1)
is true, and getWinner returns the unique converting entity of the pair. -/
theorem C1_dominance_closure (e1 e2 : Entity)
    (hty : e1.type ≠ e2.type) (hteam : e1.team ≠ e2.team) :
    (canConvert e1 e2 = true ∧ canConvert e2 e1 = false ∧
      getWinner e1 e2 = some e1) ∨
    (canConvert e2 e1 = true ∧ canConvert e1 e2 = false ∧
      getWinner e1 e2 = some e2) := by
  have hteam2 : e2.team ≠ e1.team := Ne.symm hteam
  cases ht1 : e1.type <;> cases ht2 : e2.type <;>
    first
    | exact absurd (ht1.trans ht2.symm) hty
    | (left
       refine ⟨?_, ?_, ?_⟩ <;>
         simp [canConvert, getWinner, rules, ht1, ht2, hteam, hteam2] <;> done)
    | (right
       refine ⟨?_, ?_, ?_⟩ <;>
         simp [canConvert, getWinner, rules, ht1, ht2, hteam, hteam2] <;> done)

/-- Witness for the C1 theorem at the concrete pair sampleRock and
sampleScissors. -/
theorem C1_dominance_closure_witness :
    (sampleRock.type ≠ sampleScissors.type ∧
      sampleRock.team ≠ sampleScissors.team) ∧
    ((canConvert sampleRock sampleScissors = true ∧
        canConvert sampleScissors sampleRock = false ∧
        getWinner sampleRock sampleScissors = some sampleRock) ∨
      (canConvert sampleScissors sampleRock = true ∧
        canConvert sampleRock sampleScissors = false ∧
        getWinner sampleRock sampleScissors = some sampleScissors)) :=
  ⟨⟨by decide, by decide⟩,
    C1_dominance_closure sampleRock sampleScissors (by decide) (by decide)⟩

/-- Counterexample to claim C2 as frozen: completeConversion also clears
the isConverting flag and the conversionTarget reference of the winner, so
the winner state is not equal to the pre-state with only the conversions
counter incremented. -/
theorem C2_atomicity_counterexample :
    sampleScissors.isAlive = true ∧
    (completeConversion sampleRockConverting sampleScissors).1 ≠
      { sampleRockConverting with
          conversions := sampleRockConverting.conversions + 1 } := by
  refine ⟨rfl, fun h => ?_⟩
  have h2 := congrArg Entity.isConverting h
  simp [completeConversion, sampleRockConverting, sampleRock, sampleScissors,
    mkEntity] at h2

/-- Claim C2 (amended): when completeConversion fires on a still-alive
loser, the loser takes exactly the pre-conversion species, team, color of
the winner and health equal to the winner maxHealth, and the winner is
unchanged except that its conversions counter increases by exactly 1 and
its conversion flags (isConverting, conversionTarget) are cleared. -/
theorem C2_conversion_atomicity (w l : Entity) (h : l.isAlive = true) :
    (completeConversion w l).2.type = w.type ∧
    (completeConversion w l).2.team = w.team ∧
    (completeConversion w l).2.color = w.color ∧
    (completeConversion w l).2.health = w.maxHealth ∧
    (completeConversion w l).1 =
      { w with isConverting := false, conversionTarget := none,
               conversions := w.conversions + 1 } := by
  simp [completeConversion, h]

/-- Witness for the C2 theorem at the concrete pair sampleRockConverting
and sampleScissors. -/
theorem C2_conversion_atomicity_witness :
    sampleScissors.isAlive = true ∧
    ((completeConversion sampleRockConverting sampleScissors).2.type =
        sampleRockConverting.type ∧
      (completeConversion sampleRockConverting sampleScissors).2.team =
        sampleRockConverting.team ∧
      (completeConversion sampleRockConverting sampleScissors).2.color =
        sampleRockConverting.color ∧
      (completeConversion sampleRockConverting sampleScissors).2.health =
        sampleRockConverting.maxHealth ∧
      (completeConversion sampleRockConverting sampleScissors).1 =
        { sampleRockConverting with
            isConverting := false,
            conversionTarget := none,
            conversions := sampleRockConverting.conversions + 1 }) :=
  ⟨rfl, C2_conversion_atomicity sampleRockConverting sampleScissors rfl⟩

/-- Claim C3 is violated by the code: completeConversion guards only on
the loser being alive, with no isConverting or conversionTarget check.
A loser that was re-converted by a third party but is still alive is
rewritten again, and firing the completion twice for the same pair applies
the state change twice, incrementing the winner conversions counter to 2.
The dead-loser half of the guard does hold: a completion on a dead loser
changes nothing. -/
theorem C3_missing_idempotent_guard :
    ((completeConversion
        (completeConversion (convert sampleRock sampleScissors) sampleScissors).1
        (completeConversion (convert sampleRock sampleScissors) sampleScissors).2).1.conversions
      = 2) ∧
    ((completeConversion sampleRock sampleReconverted).2.type = Species.Rock ∧
      (completeConversion sampleRock sampleReconverted).2.team = 1 ∧
      (completeConversion sampleRock sampleReconverted).1.conversions = 1) ∧
    completeConversion sampleRock (die sampleScissors) =
      (sampleRock, die sampleScissors) := by
  refine ⟨?_, ⟨?_, ?_, ?_⟩, ?_⟩ <;>
    norm_num [convert, completeConversion, die, sqrtLe, distSq,
      conversionRadius, sampleRock, sampleScissors, sampleReconverted, mkEntity]

/-- Claim C10: completeConversion mutates only the type, team, color and
health of the loser and the isConverting, conversionTarget and conversions
fields of the winner; every other field of both entities, in particular
the strategy field of the loser, is unchanged, so a converted entity keeps
the decision strategy of its former species. -/
theorem C10_conversion_frame (w l : Entity) :
    ((completeConversion w l).2.id = l.id ∧
     (completeConversion w l).2.position = l.position ∧
     (completeConversion w l).2.velocity = l.velocity ∧
     (completeConversion w l).2.radius = l.radius ∧
     (completeConversion w l).2.maxHealth = l.maxHealth ∧
     (completeConversion w l).2.speed = l.speed ∧
     (completeConversion w l).2.isAlive = l.isAlive ∧
     (completeConversion w l).2.isConverting = l.isConverting ∧
     (completeConversion w l).2.conversionTarget = l.conversionTarget ∧
     (completeConversion w l).2.strategy = l.strategy ∧
     (completeConversion w l).2.conversions = l.conversions ∧
     (completeConversion w l).2.survivalTime = l.survivalTime ∧
     (completeConversion w l).2.distanceTraveled = l.distanceTraveled) ∧
    ((completeConversion w l).1.id = w.id ∧
     (completeConversion w l).1.type = w.type ∧
     (completeConversion w l).1.team = w.team ∧
     (completeConversion w l).1.position = w.position ∧
     (completeConversion w l).1.velocity = w.velocity ∧
     (completeConversion w l).1.radius = w.radius ∧
     (completeConversion w l).1.health = w.health ∧
     (completeConversion w l).1.maxHealth = w.maxHealth ∧
     (completeConversion w l).1.speed = w.speed ∧
     (completeConversion w l).1.isAlive = w.isAlive ∧
     (completeConversion w l).1.color = w.color ∧
     (completeConversion w l).1.strategy = w.strategy ∧
     (completeConversion w l).1.survivalTime = w.survivalTime ∧
     (completeConversion w l).1.distanceTraveled = w.distanceTraveled) := by
  cases hl : l.isAlive <;> simp [completeConversion, hl]

/-- Helper: a list of deduplicated elements has length at most 1 exactly
when all elements of the original list are equal. -/
theorem dedup_length_le_one_iff {α : Type} [DecidableEq α] (l : List α) :
    l.dedup.length ≤ 1 ↔ ∀ a ∈ l, ∀ b ∈ l, a = b := by
  constructor
  · intro h a ha b hb
    have ha2 := List.mem_dedup.mpr ha
    have hb2 := List.mem_dedup.mpr hb
    rcases hd : l.dedup with _ | ⟨x, _ | ⟨y, t⟩⟩
    · rw [hd] at ha2
      simp at ha2
    · rw [hd] at ha2 hb2
      simp at ha2 hb2
      rw [ha2, hb2]
    · rw [hd] at h
      simp at h
  · intro h
    rcases hd : l.dedup with _ | ⟨x, _ | ⟨y, t⟩⟩
    · simp [hd]
    · simp [hd]
    · exfalso
      have hnd := l.nodup_dedup
      rw [hd] at hnd
      have hx : x ∈ l := List.mem_dedup.mp (by rw [hd]; exact List.mem_cons_self x _)
      have hy : y ∈ l := List.mem_dedup.mp (by rw [hd]; simp)
      have hxy := h x hx y hy
      simp [hxy] at hnd

/-- Helper: uniqueTeamsCount counts at most one team exactly when all live
entities share one team. -/
theorem uniqueTeamsCount_le_one_iff (es : List Entity) :
    uniqueTeamsCount es ≤ 1 ↔
      ∀ a ∈ es, ∀ b ∈ es, a.isAlive = true → b.isAlive = true →
        a.team = b.team := by
  rw [uniqueTeamsCount, dedup_length_le_one_iff]
  constructor
  · intro h a ha b hb haa hba
    refine h a.team ?_ b.team ?_
    · exact List.mem_map.mpr ⟨a, List.mem_filter.mpr ⟨ha, haa⟩, rfl⟩
    · exact List.mem_map.mpr ⟨b, List.mem_filter.mpr ⟨hb, hba⟩, rfl⟩
  · intro h x hx y hy
    obtain ⟨a, ha, rfl⟩ := List.mem_map.mp hx
    obtain ⟨b, hb, rfl⟩ := List.mem_map.mp hy
    have ha2 := List.mem_filter.mp ha
    have hb2 := List.mem_filter.mp hb
    exact h a ha2.1 b hb2.1 ha2.2 hb2.2

/-- Claim C5: a running battle transitions to Ended exactly when at most
one team has live entities remaining or the elapsed battle time reached the
configured duration; in particular with a single live team the next
checkBattleEnd ends the battle. -/
theorem C5_battle_end_condition (s : EngineState) (hrun : s.isRunning = true) :
    ((checkBattleEnd s).isRunning = false ↔
      uniqueTeamsCount s.entities ≤ 1 ∨
        s.battleStats.battleTime ≥ s.battleDuration) ∧
    (uniqueTeamsCount s.entities ≤ 1 ↔
      ∀ a ∈ s.entities, ∀ b ∈ s.entities, a.isAlive = true →
        b.isAlive = true → a.team = b.team) ∧
    (∀ t : ℕ, (∀ e ∈ s.entities, e.isAlive = true → e.team = t) →
      (checkBattleEnd s).isRunning = false) := by
  have hiff := uniqueTeamsCount_le_one_iff s.entities
  refine ⟨?_, hiff, ?_⟩
  · by_cases hc : uniqueTeamsCount s.entities ≤ 1 ∨
        s.battleStats.battleTime ≥ s.battleDuration
    · simp [checkBattleEnd, endBattle, stop, hc]
    · simp [checkBattleEnd, hc, hrun]
  · intro t ht
    have h1 : uniqueTeamsCount s.entities ≤ 1 :=
      hiff.mpr (fun a ha b hb haa hba => (ht a ha haa).trans (ht b hb hba).symm)
    simp [checkBattleEnd, endBattle, stop, Or.inl h1]

/-- Witness for the C5 theorem at sampleStateOneTeam, whose two entities
are both of team 1, so the next end check stops the battle. -/
theorem C5_battle_end_condition_witness :
    sampleStateOneTeam.isRunning = true ∧
    (∀ e ∈ sampleStateOneTeam.entities, e.isAlive = true → e.team = 1) ∧
    (checkBattleEnd sampleStateOneTeam).isRunning = false := by
  have h1 : (∀ e ∈ sampleStateOneTeam.entities, e.isAlive = true → e.team = 1) := by
    decide
  exact ⟨rfl, h1,
    (C5_battle_end_condition sampleStateOneTeam rfl).2.2 1 h1⟩

/-- Helper: the team-count fold adds one to the bucket sum for every entity
whose team lies in 1..3. -/
theorem countTeams_fold_sum (es : List Entity) (f : ℕ → ℕ)
    (h : ∀ x ∈ es, x.team = 1 ∨ x.team = 2 ∨ x.team = 3) :
    (es.foldl (fun g e => bumpTeam g e.team) f) 1 +
    (es.foldl (fun g e => bumpTeam g e.team) f) 2 +
    (es.foldl (fun g e => bumpTeam g e.team) f) 3 =
      f 1 + f 2 + f 3 + es.length := by
  induction es generalizing f with
  | nil => simp
  | cons e t ih =>
    simp only [List.foldl_cons]
    rw [ih _ (fun x hx => h x (List.mem_cons_of_mem e hx))]
    have he := h e (List.mem_cons_self e t)
    simp only [List.length_cons]
    rcases he with h1 | h1 | h1 <;> simp [bumpTeam, h1] <;> omega

/-- Helper: countTeams sums to the list length when every team is 1..3. -/
theorem countTeams_sum (es : List Entity)
    (h : ∀ x ∈ es, x.team = 1 ∨ x.team = 2 ∨ x.team = 3) :
    countTeams es 1 + countTeams es 2 + countTeams es 3 = es.length := by
  have := countTeams_fold_sum es (fun _ => 0) h
  simpa [countTeams] using this

/-- Helper: applying a completed conversion to the pool rewrites two
entries in place and never changes the number of entities. -/
theorem applyCompleteConversion_length (es : List Entity) (wId lId : ℕ) :
    (applyCompleteConversion es wId lId).length = es.length := by
  unfold applyCompleteConversion
  cases h1 : es.find? (fun e => e.id == wId) <;>
    cases h2 : es.find? (fun e => e.id == lId) <;> simp

/-- Claim C6: after updateStatistics the team counts of teams 1..3 sum to
the number of live entities; the statistics pass leaves the pool unchanged,
a conversion completion preserves the pool size, removeEntity never grows
it, and addEntity grows it by at most one. -/
theorem C6_conservation (s : EngineState) (e : Entity) (i wId lId : ℕ)
    (hteams : ∀ x ∈ s.entities, x.team = 1 ∨ x.team = 2 ∨ x.team = 3) :
    ((updateStatistics s).battleStats.teamCounts 1 +
     (updateStatistics s).battleStats.teamCounts 2 +
     (updateStatistics s).battleStats.teamCounts 3 =
       (s.entities.filter (·.isAlive)).length ∧
     (updateStatistics s).battleStats.activePlayers =
       (s.entities.filter (·.isAlive)).length) ∧
    (updateStatistics s).entities = s.entities ∧
    (applyCompleteConversion s.entities wId lId).length = s.entities.length ∧
    (removeEntity s i).entities.length ≤ s.entities.length ∧
    (addEntity s e).entities.length ≤ s.entities.length + 1 := by
  refine ⟨⟨?_, rfl⟩, rfl, applyCompleteConversion_length s.entities wId lId, ?_, ?_⟩
  · have hsub : ∀ x ∈ s.entities.filter (·.isAlive),
        x.team = 1 ∨ x.team = 2 ∨ x.team = 3 :=
      fun x hx => hteams x (List.mem_filter.mp hx).1
    simpa [updateStatistics] using countTeams_sum (s.entities.filter (·.isAlive)) hsub
  · cases ha : s.entities.any (fun x => x.id == i) <;>
      simp [removeEntity, ha, List.length_filter_le]
  · cases ha : s.entities.any (fun x => x.id == e.id) <;>
      simp [addEntity, ha]

/-- Witness for the C6 theorem at sampleStateOneTeam with samplePaper as
the added entity. -/
theorem C6_conservation_witness :
    (∀ x ∈ sampleStateOneTeam.entities,
      x.team = 1 ∨ x.team = 2 ∨ x.team = 3) ∧
    ((updateStatistics sampleStateOneTeam).battleStats.teamCounts 1 +
     (updateStatistics sampleStateOneTeam).battleStats.teamCounts 2 +
     (updateStatistics sampleStateOneTeam).battleStats.teamCounts 3 =
       (sampleStateOneTeam.entities.filter (·.isAlive)).length ∧
     (updateStatistics sampleStateOneTeam).battleStats.activePlayers =
       (sampleStateOneTeam.entities.filter (·.isAlive)).length) ∧
    (updateStatistics sampleStateOneTeam).entities =
      sampleStateOneTeam.entities ∧
    (applyCompleteConversion sampleStateOneTeam.entities 1 2).length =
      sampleStateOneTeam.entities.length ∧
    (removeEntity sampleStateOneTeam 1).entities.length ≤
      sampleStateOneTeam.entities.length ∧
    (addEntity sampleStateOneTeam samplePaper).entities.length ≤
      sampleStateOneTeam.entities.length + 1 := by
  have h1 : ∀ x ∈ sampleStateOneTeam.entities,
      x.team = 1 ∨ x.team = 2 ∨ x.team = 3 := by decide
  exact ⟨h1, C6_conservation sampleStateOneTeam samplePaper 1 1 2 h1⟩

/-- Helper: closed form of handleBoundaryCollision when the arena is at
least one diameter wide and tall; the two axes act independently and each
axis clamps and reflects based on the incoming position. -/
theorem handleBoundaryCollision_eq (pe : PhysicsEngine) (e : Entity)
    (hw : 2 * e.radius ≤ pe.boundaries.right - pe.boundaries.left)
    (hh : 2 * e.radius ≤ pe.boundaries.bottom - pe.boundaries.top) :
    handleBoundaryCollision pe e =
      { e with
          position :=
            (if e.position.1 - e.radius < pe.boundaries.left then
                pe.boundaries.left + e.radius
              else if e.position.1 + e.radius > pe.boundaries.right then
                pe.boundaries.right - e.radius
              else e.position.1,
             if e.position.2 - e.radius < pe.boundaries.top then
                pe.boundaries.top + e.radius
              else if e.position.2 + e.radius > pe.boundaries.bottom then
                pe.boundaries.bottom - e.radius
              else e.position.2),
          velocity :=
            (if e.position.1 - e.radius < pe.boundaries.left ∨
                e.position.1 + e.radius > pe.boundaries.right then
                e.velocity.1 * (-pe.bounce)
              else e.velocity.1,
             if e.position.2 - e.radius < pe.boundaries.top ∨
                e.position.2 + e.radius > pe.boundaries.bottom then
                e.velocity.2 * (-pe.bounce)
              else e.velocity.2) } := by
  have hA : ¬(pe.boundaries.left + e.radius + e.radius > pe.boundaries.right) := by
    linarith
  have hB : ¬(pe.boundaries.top + e.radius + e.radius > pe.boundaries.bottom) := by
    linarith
  by_cases h1 : e.position.1 - e.radius < pe.boundaries.left <;>
  by_cases h2 : e.position.1 + e.radius > pe.boundaries.right <;>
  by_cases h3 : e.position.2 - e.radius < pe.boundaries.top <;>
  by_cases h4 : e.position.2 + e.radius > pe.boundaries.bottom <;>
    first
    | exact absurd h2 (by linarith)
    | exact absurd h4 (by linarith)
    | simp [handleBoundaryCollision, h1, h2, h3, h4, hA, hB]

/-- Claim C8: handleBoundaryCollision keeps the position within all four
boundaries inflated by the entity radius, and for each boundary that the
incoming position violates it clamps the offending component to the
boundary plus or minus the radius and multiplies the matching velocity
component by minus the restitution coefficient. -/
theorem C8_boundary_reflection (pe : PhysicsEngine) (e : Entity)
    (hw : 2 * e.radius ≤ pe.boundaries.right - pe.boundaries.left)
    (hh : 2 * e.radius ≤ pe.boundaries.bottom - pe.boundaries.top) :
    (pe.boundaries.left + e.radius ≤ (handleBoundaryCollision pe e).position.1 ∧
     (handleBoundaryCollision pe e).position.1 ≤ pe.boundaries.right - e.radius ∧
     pe.boundaries.top + e.radius ≤ (handleBoundaryCollision pe e).position.2 ∧
     (handleBoundaryCollision pe e).position.2 ≤ pe.boundaries.bottom - e.radius) ∧
    (e.position.1 - e.radius < pe.boundaries.left →
      (handleBoundaryCollision pe e).position.1 = pe.boundaries.left + e.radius ∧
      (handleBoundaryCollision pe e).velocity.1 = e.velocity.1 * (-pe.bounce)) ∧
    (e.position.1 + e.radius > pe.boundaries.right →
      (handleBoundaryCollision pe e).position.1 = pe.boundaries.right - e.radius ∧
      (handleBoundaryCollision pe e).velocity.1 = e.velocity.1 * (-pe.bounce)) ∧
    (e.position.2 - e.radius < pe.boundaries.top →
      (handleBoundaryCollision pe e).position.2 = pe.boundaries.top + e.radius ∧
      (handleBoundaryCollision pe e).velocity.2 = e.velocity.2 * (-pe.bounce)) ∧
    (e.position.2 + e.radius > pe.boundaries.bottom →
      (handleBoundaryCollision pe e).position.2 = pe.boundaries.bottom - e.radius ∧
      (handleBoundaryCollision pe e).velocity.2 = e.velocity.2 * (-pe.bounce)) := by
  rw [handleBoundaryCollision_eq pe e hw hh]
  simp only
  refine ⟨⟨?_, ?_, ?_, ?_⟩, fun hx => ⟨?_, ?_⟩, fun hx => ⟨?_, ?_⟩,
    fun hy => ⟨?_, ?_⟩, fun hy => ⟨?_, ?_⟩⟩ <;>
    split_ifs <;> first | rfl | linarith | tauto

/-- Witness for the C8 theorem: cornerEntity sticks out past the left and
top boundaries of the default arena, and after handling it sits exactly on
the inflated corner with both velocity components reflected. -/
theorem C8_boundary_reflection_witness :
    (2 * cornerEntity.radius ≤ pe0.boundaries.right - pe0.boundaries.left ∧
     2 * cornerEntity.radius ≤ pe0.boundaries.bottom - pe0.boundaries.top ∧
     cornerEntity.position.1 - cornerEntity.radius < pe0.boundaries.left ∧
     cornerEntity.position.2 - cornerEntity.radius < pe0.boundaries.top) ∧
    ((handleBoundaryCollision pe0 cornerEntity).position.1 =
        pe0.boundaries.left + cornerEntity.radius ∧
      (handleBoundaryCollision pe0 cornerEntity).velocity.1 =
        cornerEntity.velocity.1 * (-pe0.bounce)) ∧
    ((handleBoundaryCollision pe0 cornerEntity).position.2 =
        pe0.boundaries.top + cornerEntity.radius ∧
      (handleBoundaryCollision pe0 cornerEntity).velocity.2 =
        cornerEntity.velocity.2 * (-pe0.bounce)) := by
  have hw : 2 * cornerEntity.radius ≤ pe0.boundaries.right - pe0.boundaries.left := by
    norm_num [cornerEntity, sampleRock, mkEntity, pe0]
  have hh : 2 * cornerEntity.radius ≤ pe0.boundaries.bottom - pe0.boundaries.top := by
    norm_num [cornerEntity, sampleRock, mkEntity, pe0]
  have hx : cornerEntity.position.1 - cornerEntity.radius < pe0.boundaries.left := by
    norm_num [cornerEntity, sampleRock, mkEntity, pe0]
  have hy : cornerEntity.position.2 - cornerEntity.radius < pe0.boundaries.top := by
    norm_num [cornerEntity, sampleRock, mkEntity, pe0]
  have h := C8_boundary_reflection pe0 cornerEntity hw hh
  exact ⟨⟨hw, hh, hx, hy⟩, h.2.1 hx, h.2.2.2.1 hy⟩

/-- Claim C9: normalize is total over the vector model: it returns the zero
vector exactly on inputs of magnitude 0, returns a unit vector otherwise,
and the velocity built by move scales the normalized direction, so its
magnitude is bounded by the absolute speed; no undefined value arises from
normalizing the zero vector. -/
theorem C9_normalize_total (v : ℝ × ℝ) :
    (magnitude v = 0 → normalize v = (0, 0)) ∧
    (magnitude v ≠ 0 → magnitude (normalize v) = 1) ∧
    (∀ s : ℝ, magnitude (moveVelocity v s) = magnitude (normalize v) * |s|) := by
  refine ⟨fun h => by simp [normalize, h], fun h => ?_, fun s => ?_⟩
  · have hS : 0 ≤ v.1 * v.1 + v.2 * v.2 :=
      add_nonneg (mul_self_nonneg v.1) (mul_self_nonneg v.2)
    have hmm : magnitude v * magnitude v = v.1 * v.1 + v.2 * v.2 := by
      simpa [magnitude, pow_two] using Real.sq_sqrt hS
    have harg : v.1 / magnitude v * (v.1 / magnitude v) +
        v.2 / magnitude v * (v.2 / magnitude v) = 1 := by
      field_simp
      linarith [hmm]
    rw [normalize, if_neg h]
    show Real.sqrt (v.1 / magnitude v * (v.1 / magnitude v) +
        v.2 / magnitude v * (v.2 / magnitude v)) = 1
    rw [harg, Real.sqrt_one]
  · have h1 : (normalize v).1 * s * ((normalize v).1 * s) +
        (normalize v).2 * s * ((normalize v).2 * s) =
        ((normalize v).1 * (normalize v).1 +
          (normalize v).2 * (normalize v).2) * s ^ 2 := by ring
    have h0 : 0 ≤ (normalize v).1 * (normalize v).1 +
        (normalize v).2 * (normalize v).2 :=
      add_nonneg (mul_self_nonneg _) (mul_self_nonneg _)
    show Real.sqrt ((normalize v).1 * s * ((normalize v).1 * s) +
        (normalize v).2 * s * ((normalize v).2 * s)) = _
    rw [h1, Real.sqrt_mul h0, Real.sqrt_sq_eq_abs]
    rfl

/-- Witness for the C9 theorem at the vector (3, 4), of nonzero magnitude,
whose normalization has magnitude 1. -/
theorem C9_normalize_total_witness :
    magnitude ((3 : ℝ), (4 : ℝ)) ≠ 0 ∧
    magnitude (normalize ((3 : ℝ), (4 : ℝ))) = 1 := by
  have hne : magnitude ((3 : ℝ), (4 : ℝ)) ≠ 0 := by
    simp only [magnitude]
    rw [Real.sqrt_ne_zero']
    norm_num
  exact ⟨hne, (C9_normalize_total (3, 4)).2.1 hne⟩

/-- Helper: the fold of closestStep from a some-accumulator returns an
entity of minimal distance among the accumulator and the list. -/
theorem closest_aux (e : Entity) (l : List Entity) :
    ∀ c : Entity,
      ∃ t, List.foldl (closestStep e)
          (some (c, distSq e.position c.position)) l =
          some (t, distSq e.position t.position) ∧
        (t = c ∨ t ∈ l) ∧
        distSq e.position t.position ≤ distSq e.position c.position ∧
        ∀ u ∈ l, distSq e.position t.position ≤ distSq e.position u.position := by
  induction l with
  | nil => exact fun c => ⟨c, rfl, Or.inl rfl, le_refl _, by simp⟩
  | cons o rest ih =>
    intro c
    have hstep : closestStep e (some (c, distSq e.position c.position)) o =
        if distSq e.position o.position < distSq e.position c.position then
          some (o, distSq e.position o.position)
        else some (c, distSq e.position c.position) := rfl
    rw [List.foldl_cons, hstep]
    by_cases hlt : distSq e.position o.position < distSq e.position c.position
    · rw [if_pos hlt]
      obtain ⟨t, hf, hm, hle, hall⟩ := ih o
      refine ⟨t, hf, ?_, by linarith, ?_⟩
      · rcases hm with rfl | hm
        · exact Or.inr (List.mem_cons_self _ _)
        · exact Or.inr (List.mem_cons_of_mem _ hm)
      · intro u hu
        rcases List.mem_cons.mp hu with rfl | hu
        · exact hle
        · exact hall u hu
    · rw [if_neg hlt]
      obtain ⟨t, hf, hm, hle, hall⟩ := ih c
      refine ⟨t, hf, ?_, hle, ?_⟩
      · rcases hm with rfl | hm
        · exact Or.inl rfl
        · exact Or.inr (List.mem_cons_of_mem _ hm)
      · intro u hu
        rcases List.mem_cons.mp hu with rfl | hu
        · linarith
        · exact hall u hu

/-- Helper: on a nonempty list, getClosestEntity returns a member of the
list whose distance to the entity is minimal. -/
theorem getClosestEntity_spec (e : Entity) (l : List Entity) (hne : l ≠ []) :
    ∃ t, getClosestEntity e l = some t ∧ t ∈ l ∧
      ∀ u ∈ l, distSq e.position t.position ≤ distSq e.position u.position := by
  match l with
  | [] => exact absurd rfl hne
  | o :: rest =>
    obtain ⟨t, hf, hm, hle, hall⟩ := closest_aux e rest o
    have hcons : List.foldl (closestStep e) none (o :: rest) =
        List.foldl (closestStep e) (some (o, distSq e.position o.position)) rest := rfl
    refine ⟨t, ?_, ?_, ?_⟩
    · unfold getClosestEntity
      rw [hcons, hf]
      rfl
    · rcases hm with rfl | hm
      · exact List.mem_cons_self _ _
      · exact List.mem_cons_of_mem _ hm
    · intro u hu
      rcases List.mem_cons.mp hu with rfl | hu
      · exact hle
      · exact hall u hu

/-- Helper: membership in the priority-1 target list of a strategy, that
is the nearby entities of a different team that are alive and of the
dominance target species. -/
theorem mem_strategy_targets (P : ℚ) (tgt : Species) (e : Entity)
    (all : List Entity) (o : Entity) :
    o ∈ ((strategyNearby P e all).filter
          (fun x => !(x.team == e.team) && x.isAlive)).filter
        (fun x => x.type == tgt) ↔
      (o ∈ all ∧ o.id ≠ e.id ∧ o.isAlive = true ∧
        sqrtLe (distSq e.position o.position) P = true) ∧
      o.team ≠ e.team ∧ o.type = tgt := by
  simp only [strategyNearby, List.mem_filter, Bool.and_eq_true, beq_iff_eq,
    Bool.not_eq_true', beq_eq_false_iff_ne]
  tauto

/-- Claim C7: whenever some live different-team enemy of the dominance
target species lies within the perception radius of the species, the
strategy decide returns an attack intent aimed at a nearest such enemy,
taking precedence over every later rule. -/
theorem C7_attack_priority (sp : Species) (e : Entity) (all : List Entity)
    (rnd : ℚ × ℚ)
    (h : ∃ o, o ∈ all ∧ o.id ≠ e.id ∧ o.isAlive = true ∧
      sqrtLe (distSq e.position o.position) (perception sp) = true ∧
      o.team ≠ e.team ∧ o.type = attackTarget sp) :
    ∃ t, speciesDecide sp e all rnd =
        Decision.attack t (vSub t.position e.position) ∧
      (t ∈ all ∧ t.id ≠ e.id ∧ t.isAlive = true ∧
        sqrtLe (distSq e.position t.position) (perception sp) = true) ∧
      t.team ≠ e.team ∧ t.type = attackTarget sp ∧
      ∀ u ∈ all, u.id ≠ e.id → u.isAlive = true →
        sqrtLe (distSq e.position u.position) (perception sp) = true →
        u.team ≠ e.team → u.type = attackTarget sp →
        distSq e.position t.position ≤ distSq e.position u.position := by
  obtain ⟨o, ho, hoid, hoalive, hoper, hoteam, hotype⟩ := h
  cases sp with
  | Rock =>
    have hoT : o ∈ ((strategyNearby 100 e all).filter
          (fun x => !(x.team == e.team) && x.isAlive)).filter
        (fun x => x.type == Species.Scissors) :=
      (mem_strategy_targets 100 Species.Scissors e all o).mpr
        ⟨⟨ho, hoid, hoalive, hoper⟩, hoteam, hotype⟩
    have hTne : ((strategyNearby 100 e all).filter
          (fun x => !(x.team == e.team) && x.isAlive)).filter
        (fun x => x.type == Species.Scissors) ≠ [] := by
      intro hnil
      rw [hnil] at hoT
      exact absurd hoT (List.not_mem_nil o)
    obtain ⟨t, hsome, htT, hmin⟩ := getClosestEntity_spec e _ hTne
    have htprops := (mem_strategy_targets 100 Species.Scissors e all t).mp htT
    refine ⟨t, ?_, htprops.1, htprops.2.1, htprops.2.2, ?_⟩
    · simp only [speciesDecide, RockStrategy.decide, RockStrategy.getNearbyEntities]
      rw [hsome]
    · intro u hu huid hualive huper huteam hutype
      exact hmin u ((mem_strategy_targets 100 Species.Scissors e all u).mpr
        ⟨⟨hu, huid, hualive, huper⟩, huteam, hutype⟩)
  | Paper =>
    have hoT : o ∈ ((strategyNearby 120 e all).filter
          (fun x => !(x.team == e.team) && x.isAlive)).filter
        (fun x => x.type == Species.Rock) :=
      (mem_strategy_targets 120 Species.Rock e all o).mpr
        ⟨⟨ho, hoid, hoalive, hoper⟩, hoteam, hotype⟩
    have hTne : ((strategyNearby 120 e all).filter
          (fun x => !(x.team == e.team) && x.isAlive)).filter
        (fun x => x.type == Species.Rock) ≠ [] := by
      intro hnil
      rw [hnil] at hoT
      exact absurd hoT (List.not_mem_nil o)
    obtain ⟨t, hsome, htT, hmin⟩ := getClosestEntity_spec e _ hTne
    have htprops := (mem_strategy_targets 120 Species.Rock e all t).mp htT
    refine ⟨t, ?_, htprops.1, htprops.2.1, htprops.2.2, ?_⟩
    · simp only [speciesDecide, PaperStrategy.decide, PaperStrategy.getNearbyEntities]
      rw [hsome]
    · intro u hu huid hualive huper huteam hutype
      exact hmin u ((mem_strategy_targets 120 Species.Rock e all u).mpr
        ⟨⟨hu, huid, hualive, huper⟩, huteam, hutype⟩)
  | Scissors =>
    have hoT : o ∈ ((strategyNearby 80 e all).filter
          (fun x => !(x.team == e.team) && x.isAlive)).filter
        (fun x => x.type == Species.Paper) :=
      (mem_strategy_targets 80 Species.Paper e all o).mpr
        ⟨⟨ho, hoid, hoalive, hoper⟩, hoteam, hotype⟩
    have hTne : ((strategyNearby 80 e all).filter
          (fun x => !(x.team == e.team) && x.isAlive)).filter
        (fun x => x.type == Species.Paper) ≠ [] := by
      intro hnil
      rw [hnil] at hoT
      exact absurd hoT (List.not_mem_nil o)
    obtain ⟨t, hsome, htT, hmin⟩ := getClosestEntity_spec e _ hTne
    have htprops := (mem_strategy_targets 80 Species.Paper e all t).mp htT
    refine ⟨t, ?_, htprops.1, htprops.2.1, htprops.2.2, ?_⟩
    · simp only [speciesDecide, ScissorsStrategy.decide,
        ScissorsStrategy.getNearbyEntities]
      rw [hsome]
    · intro u hu huid hualive huper huteam hutype
      exact hmin u ((mem_strategy_targets 80 Species.Paper e all u).mpr
        ⟨⟨hu, huid, hualive, huper⟩, huteam, hutype⟩)

/-- Witness for the C7 theorem: a Rock at the origin with one live enemy
Scissors at distance 5, well inside the Rock perception radius 100. -/
theorem C7_attack_priority_witness :
    (sampleScissors ∈ [sampleScissors] ∧
      sampleScissors.id ≠ sampleRock.id ∧
      sampleScissors.isAlive = true ∧
      sqrtLe (distSq sampleRock.position sampleScissors.position)
        (perception Species.Rock) = true ∧
      sampleScissors.team ≠ sampleRock.team ∧
      sampleScissors.type = attackTarget Species.Rock) ∧
    ∃ t, speciesDecide Species.Rock sampleRock [sampleScissors] (0, 0) =
        Decision.attack t (vSub t.position sampleRock.position) ∧
      (t ∈ [sampleScissors] ∧ t.id ≠ sampleRock.id ∧ t.isAlive = true ∧
        sqrtLe (distSq sampleRock.position t.position)
          (perception Species.Rock) = true) ∧
      t.team ≠ sampleRock.team ∧ t.type = attackTarget Species.Rock ∧
      ∀ u ∈ [sampleScissors], u.id ≠ sampleRock.id → u.isAlive = true →
        sqrtLe (distSq sampleRock.position u.position)
          (perception Species.Rock) = true →
        u.team ≠ sampleRock.team → u.type = attackTarget Species.Rock →
        distSq sampleRock.position t.position ≤
          distSq sampleRock.position u.position := by
  have hper : sqrtLe (distSq sampleRock.position sampleScissors.position)
      (perception Species.Rock) = true := by
    simp only [sqrtLe, distSq, perception, sampleRock, sampleScissors, mkEntity,
      Bool.and_eq_true, decide_eq_true_eq]
    norm_num
  have hh : sampleScissors ∈ [sampleScissors] ∧
      sampleScissors.id ≠ sampleRock.id ∧
      sampleScissors.isAlive = true ∧
      sqrtLe (distSq sampleRock.position sampleScissors.position)
        (perception Species.Rock) = true ∧
      sampleScissors.team ≠ sampleRock.team ∧
      sampleScissors.type = attackTarget Species.Rock :=
    ⟨List.mem_cons_self _ _, by decide, rfl, hper, by decide, rfl⟩
  exact ⟨hh, C7_attack_priority Species.Rock sampleRock [sampleScissors] (0, 0)
    ⟨sampleScissors, hh⟩⟩

/-- Helper: membership in a spatial grid bucket. -/
theorem mem_updateSpatialGrid (es : List Entity) (k : ℤ × ℤ) (o : Entity) :
    o ∈ updateSpatialGrid es k ↔ o ∈ es ∧ o.isAlive = true ∧ cellOf o = k := by
  simp [updateSpatialGrid, List.mem_filter, Bool.and_eq_true,
    decide_eq_true_eq, and_assoc]

/-- Helper: the 3x3 neighbor block contains exactly the cells within
Chebyshev distance 1. -/
theorem mem_neighborCells (c k : ℤ × ℤ) :
    k ∈ neighborCells c ↔
      k.1 - c.1 ≤ 1 ∧ c.1 - k.1 ≤ 1 ∧ k.2 - c.2 ≤ 1 ∧ c.2 - k.2 ≤ 1 := by
  rcases k with ⟨kx, ky⟩
  simp [neighborCells, Prod.ext_iff]
  omega

/-- Helper: squared distance is symmetric. -/
theorem distSq_comm (a b : ℚ × ℚ) : distSq a b = distSq b a := by
  unfold distSq
  ring

/-- Helper: the components of a successful checkCollision. -/
theorem checkCollision_parts {e1 e2 : Entity} (h : checkCollision e1 e2 = true) :
    e1.isAlive = true ∧ e2.isAlive = true ∧ e1.id ≠ e2.id ∧
      0 ≤ e1.radius + e2.radius ∧
      distSq e1.position e2.position ≤
        (e1.radius + e2.radius) * (e1.radius + e2.radius) := by
  simp only [checkCollision, sqrtLe, Bool.and_eq_true, decide_eq_true_eq] at h
  tauto

/-- Helper: checkCollision is symmetric. -/
theorem checkCollision_symm {e1 e2 : Entity} (h : checkCollision e1 e2 = true) :
    checkCollision e2 e1 = true := by
  obtain ⟨h1, h2, h3, h4, h5⟩ := checkCollision_parts h
  simp only [checkCollision, sqrtLe, Bool.and_eq_true, decide_eq_true_eq]
  refine ⟨⟨⟨h2, h1⟩, Ne.symm h3⟩, by linarith, ?_⟩
  rw [distSq_comm]
  have hcomm : e2.radius + e1.radius = e1.radius + e2.radius := by ring
  rw [hcomm]
  exact h5

/-- Helper: two points within gridSize of each other in one coordinate
land in cells at most one apart in that coordinate. -/
theorem cell_coord_bound (x1 x2 : ℚ) (h : |x1 - x2| ≤ 50) :
    ⌊x1 / 50⌋ - 1 ≤ ⌊x2 / 50⌋ ∧ ⌊x2 / 50⌋ ≤ ⌊x1 / 50⌋ + 1 := by
  rw [abs_le] at h
  have h1 : x2 / 50 ≤ x1 / 50 + 1 := by linarith
  have h2 : x1 / 50 - 1 ≤ x2 / 50 := by linarith
  constructor
  · have hf := Int.floor_mono h2
    rw [show x1 / 50 - 1 = x1 / 50 + (-1 : ℤ) by push_cast; ring] at hf
    rw [Int.floor_add_int] at hf
    omega
  · have hf := Int.floor_mono h1
    rw [show x1 / 50 + 1 = x1 / 50 + (1 : ℤ) by push_cast; ring] at hf
    rw [Int.floor_add_int] at hf
    omega

/-- Helper: a colliding pair with radius sum at most the cell size lies in
neighboring cells, so the 3x3 query has no false negative. -/
theorem checkCollision_cells {e1 e2 : Entity}
    (hsum : e1.radius + e2.radius ≤ gridSize)
    (hc : checkCollision e1 e2 = true) :
    cellOf e2 ∈ neighborCells (cellOf e1) := by
  obtain ⟨_, _, _, hr0, hd⟩ := checkCollision_parts hc
  have hs50 : e1.radius + e2.radius ≤ 50 := hsum
  have hq : (e1.radius + e2.radius) * (e1.radius + e2.radius) ≤ 50 * 50 := by
    nlinarith
  have hdx2 : (e1.position.1 - e2.position.1) ^ 2 ≤ 50 ^ 2 := by
    have hy2 : 0 ≤ (e1.position.2 - e2.position.2) ^ 2 := sq_nonneg _
    simp only [distSq] at hd
    nlinarith
  have hdy2 : (e1.position.2 - e2.position.2) ^ 2 ≤ 50 ^ 2 := by
    have hx2 : 0 ≤ (e1.position.1 - e2.position.1) ^ 2 := sq_nonneg _
    simp only [distSq] at hd
    nlinarith
  have hdx : |e1.position.1 - e2.position.1| ≤ 50 := by
    have := abs_le_of_sq_le_sq' hdx2 (by norm_num)
    rw [abs_le]
    exact ⟨this.1, this.2⟩
  have hdy : |e1.position.2 - e2.position.2| ≤ 50 := by
    have := abs_le_of_sq_le_sq' hdy2 (by norm_num)
    rw [abs_le]
    exact ⟨this.1, this.2⟩
  have hx := cell_coord_bound e1.position.1 e2.position.1 hdx
  have hy := cell_coord_bound e1.position.2 e2.position.2 hdy
  rw [mem_neighborCells]
  simp only [cellOf]
  have hg : gridSize = 50 := rfl
  rw [hg]
  omega

/-- Helper: membership in the 3x3 neighbor query of an entity. -/
theorem mem_getNearbyEntities (es : List Entity) (e o : Entity) :
    o ∈ getNearbyEntities (updateSpatialGrid es) e ↔
      o ∈ es ∧ o.isAlive = true ∧ o.id ≠ e.id ∧
        cellOf o ∈ neighborCells (cellOf e) := by
  simp only [getNearbyEntities, List.mem_filter, List.mem_flatMap,
    decide_eq_true_eq]
  constructor
  · rintro ⟨⟨k, hk, hok⟩, hid⟩
    have hm := (mem_updateSpatialGrid es k o).mp hok
    exact ⟨hm.1, hm.2.1, hid, hm.2.2 ▸ hk⟩
  · rintro ⟨hoes, halive, hid, hcell⟩
    exact ⟨⟨cellOf o, hcell,
      (mem_updateSpatialGrid es (cellOf o) o).mpr ⟨hoes, halive, rfl⟩⟩, hid⟩

/-- Helper: a colliding partner of an entity appears in its 3x3 neighbor
query. -/
theorem collide_mem_nearby (es : List Entity) (e b : Entity)
    (hb : b ∈ es) (hsum : e.radius + b.radius ≤ gridSize)
    (hc : checkCollision e b = true) :
    b ∈ getNearbyEntities (updateSpatialGrid es) e := by
  obtain ⟨_, hbalive, hid, _, _⟩ := checkCollision_parts hc
  rw [mem_getNearbyEntities]
  exact ⟨hb, hbalive, Ne.symm hid, checkCollision_cells hsum hc⟩

/-- Helper: two entities of a pool with distinct ids are equal when their
ids are equal. -/
theorem entity_id_inj {es : List Entity} (hn : (es.map Entity.id).Nodup)
    {a b : Entity} (ha : a ∈ es) (hb : b ∈ es) (h : a.id = b.id) : a = b :=
  List.inj_on_of_nodup_map hn ha hb h

/-- Helper: flattening grid buckets over distinct cells keeps entity ids
distinct, since every entity sits in exactly one bucket. -/
theorem nodup_flat_grid (es : List Entity) (hn : (es.map Entity.id).Nodup) :
    ∀ ks : List (ℤ × ℤ), ks.Nodup →
      ((ks.flatMap (updateSpatialGrid es)).map Entity.id).Nodup := by
  intro ks
  induction ks with
  | nil => simp
  | cons k rest ih =>
    intro hks
    simp only [List.flatMap_cons, List.map_append]
    rw [List.nodup_append]
    refine ⟨?_, ih (List.Nodup.of_cons hks), ?_⟩
    · exact hn.sublist ((List.filter_sublist es).map Entity.id)
    · intro i hi1 hi2
      obtain ⟨a, ha, rfl⟩ := List.mem_map.mp hi1
      obtain ⟨b, hbf, hba⟩ := List.mem_map.mp hi2
      obtain ⟨k2, hk2, hbk2⟩ := List.mem_flatMap.mp hbf
      have hma := (mem_updateSpatialGrid es k a).mp ha
      have hmb := (mem_updateSpatialGrid es k2 b).mp hbk2
      have hab : b = a := entity_id_inj hn hmb.1 hma.1 hba
      have : k ∈ rest := by
        rw [← hma.2.2, ← hab, hmb.2.2]
        exact hk2
      exact (List.nodup_cons.mp hks).1 this

/-- Helper: the 3x3 neighbor query of an entity returns entities with
distinct ids. -/
theorem nodup_nearby (es : List Entity) (hn : (es.map Entity.id).Nodup)
    (e : Entity) :
    ((getNearbyEntities (updateSpatialGrid es) e).map Entity.id).Nodup := by
  have hcells : (neighborCells (cellOf e)).Nodup := by
    rcases he : cellOf e with ⟨cx, cy⟩
    simp [neighborCells, Prod.ext_iff]
    omega
  have hflat := nodup_flat_grid es hn (neighborCells (cellOf e)) hcells
  exact hflat.sublist ((List.filter_sublist _).map Entity.id)

/-- Helper: the unordered pair relation on pair lists distributes over
append. -/
theorem inPairs_append {P Q : List (Entity × Entity)} {i j : ℕ} :
    inPairs (P ++ Q) i j ↔ inPairs P i j ∨ inPairs Q i j := by
  simp only [inPairs, List.mem_append]
  constructor
  · rintro ⟨p, hp | hp, hor⟩
    · exact Or.inl ⟨p, hp, hor⟩
    · exact Or.inr ⟨p, hp, hor⟩
  · rintro (⟨p, hp, hor⟩ | ⟨p, hp, hor⟩)
    · exact ⟨p, Or.inl hp, hor⟩
    · exact ⟨p, Or.inr hp, hor⟩

/-- Helper: the unordered pair relation is symmetric in the two ids. -/
theorem inPairs_symm {P : List (Entity × Entity)} {i j : ℕ}
    (h : inPairs P i j) : inPairs P j i := by
  obtain ⟨p, hp, hor⟩ := h
  exact ⟨p, hp, hor.symm⟩

/-- Helper: the inner collision loop only appends pairs, every appended
pair has the outer entity first and a colliding neighbor second, and the
checked set is extended in lockstep with the pair list. -/
theorem innerAux_shape (e : Entity) (n : List Entity) :
    ∀ (P : List (Entity × Entity)) (C : List (ℕ × ℕ)),
      ∃ D, (innerAux e n P C).1 = P ++ D ∧
        (innerAux e n P C).2 = C ++ D.map uid ∧
        ∀ p ∈ D, p.1 = e ∧ p.2 ∈ n ∧ checkCollision e p.2 = true := by
  induction n with
  | nil => exact fun P C => ⟨[], by simp [innerAux], by simp [innerAux], by simp⟩
  | cons o rest ih =>
    intro P C
    cases halive : o.isAlive with
    | false =>
      obtain ⟨D, h1, h2, h3⟩ := ih P C
      refine ⟨D, ?_, ?_, ?_⟩
      · rw [innerAux, halive]
        simpa using h1
      · rw [innerAux, halive]
        simpa using h2
      · exact fun p hp => ⟨(h3 p hp).1, List.mem_cons_of_mem _ (h3 p hp).2.1,
          (h3 p hp).2.2⟩
    | true =>
      by_cases hm : (o.id, e.id) ∈ C
      · obtain ⟨D, h1, h2, h3⟩ := ih P C
        refine ⟨D, ?_, ?_, ?_⟩
        · rw [innerAux, halive]
          simpa [hm] using h1
        · rw [innerAux, halive]
          simpa [hm] using h2
        · exact fun p hp => ⟨(h3 p hp).1, List.mem_cons_of_mem _ (h3 p hp).2.1,
            (h3 p hp).2.2⟩
      · by_cases hcol : checkCollision e o = true
        · obtain ⟨D, h1, h2, h3⟩ := ih (P ++ [(e, o)]) (C ++ [(e.id, o.id)])
          refine ⟨(e, o) :: D, ?_, ?_, ?_⟩
          · rw [innerAux, halive]
            simp only [Bool.not_true, Bool.false_eq_true, if_false, hm,
              if_false, hcol, if_true]
            rw [h1]
            simp
          · rw [innerAux, halive]
            simp only [Bool.not_true, Bool.false_eq_true, if_false, hm,
              if_false, hcol, if_true]
            rw [h2]
            simp [uid]
          · intro p hp
            rcases List.mem_cons.mp hp with rfl | hp2
            · exact ⟨rfl, List.mem_cons_self _ _, hcol⟩
            · exact ⟨(h3 p hp2).1, List.mem_cons_of_mem _ (h3 p hp2).2.1,
                (h3 p hp2).2.2⟩
        · obtain ⟨D, h1, h2, h3⟩ := ih P C
          refine ⟨D, ?_, ?_, ?_⟩
          · rw [innerAux, halive]
            simpa [hm, hcol] using h1
          · rw [innerAux, halive]
            simpa [hm, hcol] using h2
          · exact fun p hp => ⟨(h3 p hp).1, List.mem_cons_of_mem _ (h3 p hp).2.1,
              (h3 p hp).2.2⟩

/-- Helper: every colliding neighbor of the outer entity ends up reported
as an unordered pair by the inner loop, given that the checked set mirrors
the reported pairs. -/
theorem innerAux_complete (e : Entity) (n : List Entity) :
    ∀ (P : List (Entity × Entity)) (C : List (ℕ × ℕ)), C = P.map uid →
      ∀ o ∈ n, checkCollision e o = true →
        inPairs (innerAux e n P C).1 e.id o.id := by
  induction n with
  | nil =>
    intro P C _ o ho
    exact absurd ho (List.not_mem_nil o)
  | cons h rest ih =>
    intro P C hC o ho hcol
    rcases List.mem_cons.mp ho with rfl | ho2
    · have halive : o.isAlive = true := (checkCollision_parts hcol).2.1
      by_cases hm : (o.id, e.id) ∈ C
      · have hold : inPairs P e.id o.id := by
          rw [hC] at hm
          obtain ⟨p, hp, hup⟩ := List.mem_map.mp hm
          refine ⟨p, hp, Or.inr ?_⟩
          have h1 : p.1.id = o.id := by
            have := congrArg Prod.fst hup
            simpa [uid] using this
          have h2 : p.2.id = e.id := by
            have := congrArg Prod.snd hup
            simpa [uid] using this
          exact ⟨h1, h2⟩
        rw [innerAux, halive]
        simp only [Bool.not_true, Bool.false_eq_true, if_false, hm, if_true]
        obtain ⟨D, h1, _, _⟩ := innerAux_shape e rest P C
        rw [h1, inPairs_append]
        exact Or.inl hold
      · rw [innerAux, halive]
        simp only [Bool.not_true, Bool.false_eq_true, if_false, hm,
          if_false, hcol, if_true]
        obtain ⟨D, h1, _, _⟩ := innerAux_shape e rest (P ++ [(e, o)])
          (C ++ [(e.id, o.id)])
        rw [h1, inPairs_append]
        exact Or.inl (inPairs_append.mpr
          (Or.inr ⟨(e, o), List.mem_cons_self _ _, Or.inl ⟨rfl, rfl⟩⟩))
    · cases halive : h.isAlive with
      | false =>
        rw [innerAux, halive]
        simpa using ih P C hC o ho2 hcol
      | true =>
        by_cases hm : (h.id, e.id) ∈ C
        · rw [innerAux, halive]
          simpa [hm] using ih P C hC o ho2 hcol
        · by_cases hcol2 : checkCollision e h = true
          · rw [innerAux, halive]
            simp only [Bool.not_true, Bool.false_eq_true, if_false, hm,
              if_false, hcol2, if_true]
            refine ih (P ++ [(e, h)]) (C ++ [(e.id, h.id)]) ?_ o ho2 hcol
            rw [hC]
            simp [uid]
          · rw [innerAux, halive]
            simpa [hm, hcol2] using ih P C hC o ho2 hcol

/-- Helper: the inner loop never reports the same unordered pair twice,
given distinct ids among the neighbors, a checked set mirroring the pairs,
and no checked entry led by the outer entity id. -/
theorem innerAux_distinct (e : Entity) (n : List Entity) :
    ∀ (P : List (Entity × Entity)) (C : List (ℕ × ℕ)),
      C = P.map uid →
      List.Pairwise (fun p q => ¬ sameUPair p q) P →
      (n.map Entity.id).Nodup →
      (∀ o ∈ n, (e.id, o.id) ∉ C) →
      List.Pairwise (fun p q => ¬ sameUPair p q) (innerAux e n P C).1 := by
  induction n with
  | nil =>
    intro P C _ hP _ _
    simpa [innerAux] using hP
  | cons o rest ih =>
    intro P C hC hP hnod hCe
    have hnod2 : (rest.map Entity.id).Nodup := by
      rw [List.map_cons, List.nodup_cons] at hnod
      exact hnod.2
    have hoid : o.id ∉ rest.map Entity.id := by
      rw [List.map_cons, List.nodup_cons] at hnod
      exact hnod.1
    cases halive : o.isAlive with
    | false =>
      rw [innerAux, halive]
      simpa using ih P C hC hP hnod2
        (fun x hx => hCe x (List.mem_cons_of_mem _ hx))
    | true =>
      by_cases hm : (o.id, e.id) ∈ C
      · rw [innerAux, halive]
        simpa [hm] using ih P C hC hP hnod2
          (fun x hx => hCe x (List.mem_cons_of_mem _ hx))
      · by_cases hcol : checkCollision e o = true
        · rw [innerAux, halive]
          simp only [Bool.not_true, Bool.false_eq_true, if_false, hm,
            if_false, hcol, if_true]
          refine ih (P ++ [(e, o)]) (C ++ [(e.id, o.id)]) ?_ ?_ hnod2 ?_
          · rw [hC]
            simp [uid]
          · rw [List.pairwise_append]
            refine ⟨hP, List.pairwise_singleton _ _, ?_⟩
            intro p hp q hq hsame
            have hq2 : q = (e, o) := by simpa using hq
            subst hq2
            rcases hsame with ⟨h1, h2⟩ | ⟨h1, h2⟩
            · refine hCe o (List.mem_cons_self _ _) ?_
              rw [hC]
              exact List.mem_map.mpr ⟨p, hp, by simp [uid, h1, h2]⟩
            · refine hm ?_
              rw [hC]
              exact List.mem_map.mpr ⟨p, hp, by simp [uid, h1, h2]⟩
          · intro x hx hmem
            rcases List.mem_append.mp hmem with hmc | hmc
            · exact hCe x (List.mem_cons_of_mem _ hx) hmc
            · have hxo : x.id = o.id := by simpa using hmc
              exact hoid (hxo ▸ List.mem_map_of_mem Entity.id hx)
        · rw [innerAux, halive]
          simpa [hm, hcol] using ih P C hC hP hnod2
            (fun x hx => hCe x (List.mem_cons_of_mem _ hx))

/-- Helper: full invariant of the outer loop of checkAllCollisions over a
suffix of the entity list, with the grid built from the full list: the
reported pairs grow by sound pairs only, stay duplicate-free, and cover
every colliding pair whose first entity lies in the suffix. -/
theorem collideAux_master (ES : List Entity)
    (hnodES : (ES.map Entity.id).Nodup)
    (hsum : ∀ a ∈ ES, ∀ b ∈ ES, a.radius + b.radius ≤ gridSize) :
    ∀ (es : List Entity) (P : List (Entity × Entity)) (C : List (ℕ × ℕ)),
      (∀ x ∈ es, x ∈ ES) →
      (es.map Entity.id).Nodup →
      C = P.map uid →
      List.Pairwise (fun p q => ¬ sameUPair p q) P →
      (∀ ij ∈ C, ij.1 ∉ es.map Entity.id) →
      (∃ D, (collideAux (updateSpatialGrid ES) es P C).1 = P ++ D ∧
          (collideAux (updateSpatialGrid ES) es P C).2 = C ++ D.map uid ∧
          ∀ p ∈ D, p.1 ∈ ES ∧ p.2 ∈ ES ∧ checkCollision p.1 p.2 = true) ∧
      List.Pairwise (fun p q => ¬ sameUPair p q)
        (collideAux (updateSpatialGrid ES) es P C).1 ∧
      (∀ a ∈ es, ∀ b ∈ ES, checkCollision a b = true →
        inPairs (collideAux (updateSpatialGrid ES) es P C).1 a.id b.id) := by
  intro es
  induction es with
  | nil =>
    intro P C hsub hnes hC hP hfirst
    refine ⟨⟨[], by simp [collideAux], by simp [collideAux], by simp⟩, ?_, ?_⟩
    · simpa [collideAux] using hP
    · intro a ha
      exact absurd ha (List.not_mem_nil a)
  | cons e rest ih =>
    intro P C hsub hnes hC hP hfirst
    have hsub2 : ∀ x ∈ rest, x ∈ ES :=
      fun x hx => hsub x (List.mem_cons_of_mem _ hx)
    have hnes2 : (rest.map Entity.id).Nodup := by
      rw [List.map_cons, List.nodup_cons] at hnes
      exact hnes.2
    have heid : e.id ∉ rest.map Entity.id := by
      rw [List.map_cons, List.nodup_cons] at hnes
      exact hnes.1
    cases halive : e.isAlive with
    | false =>
      have hfirst2 : ∀ ij ∈ C, ij.1 ∉ rest.map Entity.id := by
        intro ij hij hmem
        exact hfirst ij hij (by simp [hmem])
      have main := ih P C hsub2 hnes2 hC hP hfirst2
      rw [collideAux, halive]
      simp only [Bool.false_eq_true, if_false]
      refine ⟨main.1, main.2.1, ?_⟩
      intro a ha b hb hcol
      rcases List.mem_cons.mp ha with rfl | ha2
      · have hal := (checkCollision_parts hcol).1
        rw [halive] at hal
        exact absurd hal (by simp)
      · exact main.2.2 a ha2 b hb hcol
    | true =>
      have hCe : ∀ o ∈ getNearbyEntities (updateSpatialGrid ES) e,
          (e.id, o.id) ∉ C := by
        intro o _ hmem
        exact hfirst (e.id, o.id) hmem (by simp)
      have hnodn := nodup_nearby ES hnodES e
      obtain ⟨D1, hsh1, hsh2, hD1⟩ :=
        innerAux_shape e (getNearbyEntities (updateSpatialGrid ES) e) P C
      have hP1 := innerAux_distinct e
        (getNearbyEntities (updateSpatialGrid ES) e) P C hC hP hnodn hCe
      rw [hsh1] at hP1
      rw [collideAux, halive]
      rw [if_pos rfl]
      simp only
      rw [hsh1, hsh2]
      have hC1 : C ++ D1.map uid = (P ++ D1).map uid := by
        rw [hC, List.map_append]
      have hfirst1 : ∀ ij ∈ C ++ D1.map uid, ij.1 ∉ rest.map Entity.id := by
        intro ij hij
        rcases List.mem_append.mp hij with hijC | hijD
        · intro hmem
          exact hfirst ij hijC (by simp [hmem])
        · obtain ⟨p, hp, rfl⟩ := List.mem_map.mp hijD
          have hpe : p.1 = e := (hD1 p hp).1
          rw [uid, hpe]
          exact heid
      have main := ih (P ++ D1) (C ++ D1.map uid) hsub2 hnes2 hC1 hP1 hfirst1
      obtain ⟨⟨D2, hD21, hD22, hD2p⟩, hpair2, hcompl2⟩ := main
      refine ⟨⟨D1 ++ D2, ?_, ?_, ?_⟩, hpair2, ?_⟩
      · rw [hD21, List.append_assoc]
      · rw [hD22, List.map_append, List.append_assoc]
      · intro p hp
        rcases List.mem_append.mp hp with hp1 | hp2
        · have h1 := hD1 p hp1
          have hpES : p.1 ∈ ES := by
            rw [h1.1]
            exact hsub e (List.mem_cons_self _ _)
          have hp2ES : p.2 ∈ ES :=
            ((mem_getNearbyEntities ES e p.2).mp h1.2.1).1
          refine ⟨hpES, hp2ES, ?_⟩
          rw [h1.1]
          exact h1.2.2
        · exact hD2p p hp2
      · intro a ha b hb hcol
        rcases List.mem_cons.mp ha with rfl | ha2
        · have hbn : b ∈ getNearbyEntities (updateSpatialGrid ES) a :=
            collide_mem_nearby ES a b hb
              (hsum a (hsub a (List.mem_cons_self _ _)) b hb) hcol
          have hinner := innerAux_complete a
            (getNearbyEntities (updateSpatialGrid ES) a) P C hC b hbn hcol
          rw [hsh1] at hinner
          rw [hD21]
          exact inPairs_append.mpr (Or.inl hinner)
        · exact hcompl2 a ha2 b hb hcol

/-- Helper: every pair of the triangular double loop is a colliding pair
of list members. -/
theorem trianglePairs_sound :
    ∀ (l : List Entity), ∀ p ∈ trianglePairs l,
      p.1 ∈ l ∧ p.2 ∈ l ∧ checkCollision p.1 p.2 = true := by
  intro l
  induction l with
  | nil =>
    intro p hp
    exact absurd hp (List.not_mem_nil p)
  | cons e rest ih =>
    intro p hp
    rw [trianglePairs] at hp
    rcases List.mem_append.mp hp with hp1 | hp2
    · obtain ⟨o, ho, rfl⟩ := List.mem_map.mp hp1
      have hof := List.mem_filter.mp ho
      exact ⟨List.mem_cons_self _ _, List.mem_cons_of_mem _ hof.1,
        by simpa using hof.2⟩
    · have h2 := ih p hp2
      exact ⟨List.mem_cons_of_mem _ h2.1, List.mem_cons_of_mem _ h2.2.1, h2.2.2⟩

/-- Helper: the triangular double loop reports every colliding pair of
list members. -/
theorem trianglePairs_complete :
    ∀ (l : List Entity) (a b : Entity), a ∈ l → b ∈ l →
      checkCollision a b = true → inPairs (trianglePairs l) a.id b.id := by
  intro l
  induction l with
  | nil =>
    intro a b ha
    exact absurd ha (List.not_mem_nil a)
  | cons e rest ih =>
    intro a b ha hb hcol
    have hab : a.id ≠ b.id := (checkCollision_parts hcol).2.2.1
    rw [trianglePairs, inPairs_append]
    rcases List.mem_cons.mp ha with rfl | ha2
    · rcases List.mem_cons.mp hb with rfl | hb2
      · exact absurd rfl hab
      · refine Or.inl ⟨(a, b), ?_, Or.inl ⟨rfl, rfl⟩⟩
        exact List.mem_map.mpr
          ⟨b, List.mem_filter.mpr ⟨hb2, by simpa using hcol⟩, rfl⟩
    · rcases List.mem_cons.mp hb with rfl | hb2
      · refine Or.inl ⟨(b, a), ?_, Or.inr ⟨rfl, rfl⟩⟩
        exact List.mem_map.mpr
          ⟨a, List.mem_filter.mpr
            ⟨ha2, by simpa using checkCollision_symm hcol⟩, rfl⟩
      · exact Or.inr (ih a b ha2 hb2 hcol)

/-- Helper: soundness of the brute-force engine collision pass. -/
theorem engineCheckCollisions_sound (es : List Entity) (p : Entity × Entity)
    (hp : p ∈ engineCheckCollisions es) :
    p.1 ∈ es ∧ p.2 ∈ es ∧ checkCollision p.1 p.2 = true := by
  have h := trianglePairs_sound (es.filter (·.isAlive)) p hp
  exact ⟨(List.mem_filter.mp h.1).1, (List.mem_filter.mp h.2.1).1, h.2.2⟩

/-- Helper: completeness of the brute-force engine collision pass. -/
theorem engineCheckCollisions_complete (es : List Entity) (a b : Entity)
    (ha : a ∈ es) (hb : b ∈ es) (hcol : checkCollision a b = true) :
    inPairs (engineCheckCollisions es) a.id b.id := by
  have hparts := checkCollision_parts hcol
  exact trianglePairs_complete _ a b
    (List.mem_filter.mpr ⟨ha, hparts.1⟩)
    (List.mem_filter.mpr ⟨hb, hparts.2.1⟩) hcol

/-- Claim C4: for a pool of entities with distinct ids whose pairwise
radius sums stay at most the cell size, the grid-based checkAllCollisions
reports exactly the unordered colliding pairs of the brute-force pairwise
pass of the engine (same collision predicate), and it reports every
unordered pair at most once; in particular the 3x3 neighbor query has no
false negatives for thresholds up to the cell size. -/
theorem C4_grid_refinement (es : List Entity)
    (hnod : (es.map Entity.id).Nodup)
    (hsum : ∀ a ∈ es, ∀ b ∈ es, a.radius + b.radius ≤ gridSize) :
    (∀ i j, inPairs (checkAllCollisions es) i j ↔
        inPairs (engineCheckCollisions es) i j) ∧
    List.Pairwise (fun p q => ¬ sameUPair p q) (checkAllCollisions es) := by
  obtain ⟨⟨D, hD1, _, hDp⟩, hpair, hcompl⟩ :=
    collideAux_master es hnod hsum es [] [] (fun x h => h) hnod rfl
      List.Pairwise.nil (by simp)
  refine ⟨?_, ?_⟩
  · intro i j
    constructor
    · intro hin
      rw [checkAllCollisions] at hin
      obtain ⟨p, hp, hor⟩ := hin
      rw [hD1] at hp
      simp only [List.nil_append] at hp
      have hprops := hDp p hp
      have hbase := engineCheckCollisions_complete es p.1 p.2 hprops.1
        hprops.2.1 hprops.2.2
      rcases hor with ⟨h1, h2⟩ | ⟨h1, h2⟩
      · rw [← h1, ← h2]
        exact hbase
      · rw [← h1, ← h2]
        exact inPairs_symm hbase
    · intro hin
      obtain ⟨p, hp, hor⟩ := hin
      have hprops := engineCheckCollisions_sound es p hp
      have hbase := hcompl p.1 hprops.1 p.2 hprops.2.1 hprops.2.2
      rw [checkAllCollisions]
      rcases hor with ⟨h1, h2⟩ | ⟨h1, h2⟩
      · rw [← h1, ← h2]
        exact hbase
      · rw [← h1, ← h2]
        exact inPairs_symm hbase
  · rw [checkAllCollisions]
    exact hpair

/-- Witness for the C4 theorem at a concrete three-entity pool with
distinct ids and radii 15: the grid pass and the brute-force pass agree
and no unordered pair repeats. -/
theorem C4_grid_refinement_witness :
    ((gridSampleEntities.map Entity.id).Nodup ∧
      ∀ a ∈ gridSampleEntities, ∀ b ∈ gridSampleEntities,
        a.radius + b.radius ≤ gridSize) ∧
    (∀ i j, inPairs (checkAllCollisions gridSampleEntities) i j ↔
        inPairs (engineCheckCollisions gridSampleEntities) i j) ∧
    List.Pairwise (fun p q => ¬ sameUPair p q)
      (checkAllCollisions gridSampleEntities) := by
  have h1 : (gridSampleEntities.map Entity.id).Nodup := by decide
  have h2 : ∀ a ∈ gridSampleEntities, ∀ b ∈ gridSampleEntities,
      a.radius + b.radius ≤ gridSize := by
    intro a ha b hb
    fin_cases ha <;> fin_cases hb <;>
      norm_num [gridSize, gridSampleEntities, sampleRock, sampleScissors,
        sampleFarRock, mkEntity]
  exact ⟨⟨h1, h2⟩, C4_grid_refinement gridSampleEntities h1 h2⟩

end RPS
